import Mathlib

/-!
Verification of the Obsidian-Digital-Garden page compiler
(`src/compiler/GardenPageCompiler.ts`).

The development embeds the compiler's text-rewrite passes as executable
Lean functions over `String` / `List Char`.  JavaScript regular-expression
matching is embedded by dedicated scanners implementing the exact
semantics of the concrete patterns appearing in the source (lazy
quantifiers, no-newline `.` without the `s` flag, global left-to-right
non-overlapping scanning).  External collaborators (vault content store,
metadata cache, link resolver, drawing compiler, dataview API, custom
filters, URL utilities) are modelled as an explicit environment record.
-/

namespace Garden

/-! ## Core string utilities (JavaScript string primitives) -/

/-- Index of the first occurrence of `pat` in `text` (`String.prototype.indexOf`
on the happy path); `none` when absent. -/
def findSub (pat : List Char) : List Char → Option Nat
  | [] => if pat.isEmpty then some 0 else none
  | c :: rest =>
    if pat.isPrefixOf (c :: rest) then some 0
    else (findSub pat rest).map (· + 1)

/-- All positions at which `pat` occurs in `text`. -/
def allSubPositions (pat text : List Char) : List Nat :=
  (List.range (text.length + 1)).filter (fun i => pat.isPrefixOf (text.drop i))

/-- Index of the last occurrence of `pat` in `text`. -/
def findSubLast (pat text : List Char) : Option Nat :=
  (allSubPositions pat text).getLast?

/-- JS `String.prototype.indexOf`: `-1` when the pattern is absent. -/
def jsIndexOf (s pat : String) : Int :=
  match findSub pat.toList s.toList with
  | some i => (i : Int)
  | none => -1

/-- JS `String.prototype.lastIndexOf`: `-1` when the pattern is absent. -/
def jsLastIndexOf (s pat : String) : Int :=
  match findSubLast pat.toList s.toList with
  | some i => (i : Int)
  | none => -1

/-- JS `String.prototype.substring` (clamps negative indices to `0`, swaps
the end points when given in reverse order). -/
def jsSubstring (s : String) (a b : Int) : String :=
  let n := s.length
  let a' := min (max a 0).toNat n
  let b' := min (max b 0).toNat n
  let lo := min a' b'
  let hi := max a' b'
  String.mk ((s.toList.take hi).drop lo)

/-- JS `String.prototype.includes`. -/
def jsIncludes (s pat : String) : Bool :=
  (findSub pat.toList s.toList).isSome

/-- First-occurrence string replacement: JS `String.prototype.replace`
with a plain-string pattern (the replacement is inserted verbatim). -/
def replaceFirstL (text pat repl : List Char) : List Char :=
  match findSub pat text with
  | none => text
  | some i => text.take i ++ repl ++ text.drop (i + pat.length)

/-- `replaceFirstL` on `String`s. -/
def replaceFirstS (s pat repl : String) : String :=
  String.mk (replaceFirstL s.toList pat.toList repl.toList)

/-- JS `Array.prototype.slice` with two arguments (non-negative indices). -/
def jsSlice (l : List String) (a b : Nat) : List String :=
  (l.take b).drop a

/-- JS `String.prototype.split` on a non-empty separator (auxiliary,
fuel-driven so that it reduces definitionally). -/
def splitOnAux (sep : List Char) : Nat → List Char → List Char → List (List Char)
  | 0, acc, l => [acc.reverse ++ l]
  | _ + 1, acc, [] => [acc.reverse]
  | fuel + 1, acc, c :: rest =>
    if sep.isPrefixOf (c :: rest) then
      acc.reverse :: splitOnAux sep fuel [] ((c :: rest).drop sep.length)
    else splitOnAux sep fuel (c :: acc) rest

/-- JS `String.prototype.split` with a non-empty plain-string separator. -/
def jsSplit (s sep : String) : List String :=
  if sep = "" then [s]
  else (splitOnAux sep.toList (s.length + 1) [] s.toList).map String.mk

/-- JS `Array.prototype.join` with the given separator. -/
def joinSep (sep : String) : List String → String
  | [] => ""
  | [x] => x
  | x :: rest => x ++ sep ++ joinSep sep rest

/-- JS `String.prototype.endsWith`. -/
def jsEndsWith (s pat : String) : Bool :=
  pat.toList.reverse.isPrefixOf s.toList.reverse

/-- JS `String.prototype.startsWith`. -/
def jsStartsWith (s pat : String) : Bool :=
  pat.toList.isPrefixOf s.toList

/-- Decimal rendering of a `Nat` (fuel-driven so that it reduces
definitionally). -/
def natDigits : Nat → Nat → List Char
  | 0, _ => []
  | fuel + 1, n =>
    if n < 10 then [Char.ofNat (48 + n)]
    else natDigits fuel (n / 10) ++ [Char.ofNat (48 + n % 10)]

def natToString (n : Nat) : String := String.mk (natDigits (n + 1) n)

/-- JS `parseInt(s)` restricted to decimal notation: skip leading
whitespace, optional sign, then at least one digit; `none` models `NaN`. -/
def jsParseInt (s : String) : Option Int :=
  let l := s.toList.dropWhile Char.isWhitespace
  let (neg, l₂) :=
    match l with
    | '-' :: r => (true, r)
    | '+' :: r => (false, r)
    | r => (false, r)
  let ds := l₂.takeWhile Char.isDigit
  if ds.isEmpty then none
  else
    let v : Nat := ds.foldl (fun acc c => acc * 10 + (c.toNat - 48)) 0
    some (if neg then -(v : Int) else (v : Int))

/-! ## Generic scanning drivers

A `step` function inspects a suffix of the text; on success it yields a
produced value together with the remaining suffix after the match.  The
drivers replay the JS global-regex loop: on failure advance one
character, on success continue after the match.  The fuel argument is
always instantiated with the text length, which suffices because every
match of the patterns used here consumes at least one character. -/

def scanMatchesFuel {α : Type} (step : List Char → Option (α × List Char)) :
    Nat → List Char → List α
  | 0, _ => []
  | _, [] => []
  | fuel + 1, c :: rest =>
    match step (c :: rest) with
    | some (m, after) => m :: scanMatchesFuel step fuel after
    | none => scanMatchesFuel step fuel rest

def scanMatches {α : Type} (step : List Char → Option (α × List Char))
    (text : List Char) : List α :=
  scanMatchesFuel step text.length text

/-- `text.match(regex)` returning the list of matched substrings. -/
def scanMatchesStr (step : List Char → Option (List Char × List Char))
    (s : String) : List String :=
  (scanMatches step s.toList).map String.mk

/-- Global replace-every-match driver (JS `replace` with the `g` flag and
a replacement computed from the match): the step yields the replacement
text directly. -/
def replaceScanFuel (step : List Char → Option (List Char × List Char)) :
    Nat → List Char → List Char
  | 0, l => l
  | _, [] => []
  | fuel + 1, c :: rest =>
    match step (c :: rest) with
    | some (repl, after) => repl ++ replaceScanFuel step fuel after
    | none => c :: replaceScanFuel step fuel rest

def replaceScan (step : List Char → Option (List Char × List Char))
    (l : List Char) : List Char :=
  replaceScanFuel step l.length l

/-- Whether the scanning loop would find at least one match. -/
def scanHasMatchFuel {α : Type} (step : List Char → Option (α × List Char)) :
    Nat → List Char → Bool
  | 0, _ => false
  | _, [] => false
  | fuel + 1, c :: rest =>
    match step (c :: rest) with
    | some _ => true
    | none => scanHasMatchFuel step fuel rest

def scanHasMatch {α : Type} (step : List Char → Option (α × List Char))
    (l : List Char) : Bool :=
  scanHasMatchFuel step l.length l

/-! ## Pattern steps for the concrete regexes of the compiler -/

/-- Step for an Obsidian comment span `%%.+?%%` (flags `gms`: the lazy body
may contain newlines and has at least one character). -/
def stepComment (l : List Char) : Option (List Char × List Char) :=
  if ['%', '%'].isPrefixOf l then
    let body := l.drop 2
    match findSub ['%', '%'] (body.drop 1) with
    | some i =>
      let len := 2 + (1 + i) + 2
      some (l.take len, l.drop len)
    | none => none
  else none

/-- Step for a bracketed reference with the given two-character opener:
`\[\[(.+?)\]\]` (or `!\[\[(.+?)\]\]`): the lazy body has at least one
character and, without the `s` flag, may not contain a newline. -/
def stepBracketRef (opener : List Char) (l : List Char) :
    Option (List Char × List Char) :=
  if opener.isPrefixOf l then
    let body := l.drop opener.length
    match findSub [']', ']'] (body.drop 1) with
    | some i =>
      let content := body.take (1 + i)
      if content.contains '\n' then none
      else
        let len := opener.length + (1 + i) + 2
        some (l.take len, l.drop len)
    | none => none
  else none

/-- Step for a transclusion embed `!\[\[(.+?)\]\]`. -/
def stepEmbed : List Char → Option (List Char × List Char) :=
  stepBracketRef ['!', '[', '[']

/-- Step for a wiki link `\[\[(.+?)\]\]`. -/
def stepLink : List Char → Option (List Char × List Char) :=
  stepBracketRef ['[', '[']

/-- Modelled from the spec: the fenced-code-block scanner (the repository
imports `CODEBLOCK_REGEX` from a utils module that is not part of the
provided sources).  A fenced code block runs from a ``` ``` `` opener,
through the rest of that line, lazily up to the next ``` ``` ``
(at least one inner character). -/
def stepCodeBlock (l : List Char) : Option (List Char × List Char) :=
  if ['`', '`', '`'].isPrefixOf l then
    let body := l.drop 3
    match findSub ['\n'] body with
    | some n =>
      let rest₂ := body.drop (n + 1)
      match findSub ['`', '`', '`'] (rest₂.drop 1) with
      | some j =>
        let len := 3 + n + 1 + (1 + j) + 3
        some (l.take len, l.drop len)
      | none => none
    | none => none
  else none

/-- Modelled from the spec: the inline code-span scanner (the repository
imports `CODE_FENCE_REGEX` from a module outside the provided sources).
An inline code span is a single-line `` `(.*?)` `` pair; the lazy body may
be empty and may not contain a newline. -/
def stepCodeFence (l : List Char) : Option (List Char × List Char) :=
  match l with
  | '`' :: rest =>
    match findSub ['`'] rest with
    | some i =>
      if (rest.take i).contains '\n' then none
      else some (l.take (2 + i), l.drop (2 + i))
    | none => none
  | _ => none

/-- Modelled from the spec: the drawing-block scanner (the repository
imports `EXCALIDRAW_REGEX` from a module outside the provided sources).
A drawing block is a `:[[digits,digits],` marker followed lazily by
single-line content up to `]]`. -/
def stepDrawing (l : List Char) : Option (List Char × List Char) :=
  if [':', '[', '['].isPrefixOf l then
    let body := l.drop 3
    let d₁ := body.takeWhile Char.isDigit
    let r₁ := body.drop d₁.length
    match r₁ with
    | ',' :: r₂ =>
      let d₂ := r₂.takeWhile Char.isDigit
      let r₃ := r₂.drop d₂.length
      match r₃ with
      | ']' :: ',' :: r₄ =>
        match findSub [']', ']'] r₄ with
        | some j =>
          if (r₄.take j).contains '\n' then none
          else
            let len := 3 + d₁.length + 1 + d₂.length + 2 + j + 2
            some (l.take len, l.drop len)
        | none => none
      | _ => none
    | _ => none
  else none

/-- Character class `[\w\d-]` used by the block-anchor patterns. -/
def isAnchorChar (c : Char) : Bool :=
  c.isAlphanum || c = '_' || c = '-'

/-- Character class `\w` used by the residual block-reference pattern. -/
def isWordChar (c : Char) : Bool :=
  c.isAlphanum || c = '_'

/-- Step for `\n\^([\w\d-]+)\n` replaced by `{ #$1}\n\n`
(`complex_block_pattern` of `createBlockIDs`; yields the replacement). -/
def stepComplexBlock (l : List Char) : Option (List Char × List Char) :=
  match l with
  | '\n' :: '^' :: rest =>
    let w := rest.takeWhile isAnchorChar
    if w.isEmpty then none
    else
      match rest.drop w.length with
      | '\n' :: after =>
        some ('\x7b' :: ' ' :: '#' :: (w ++ ['\x7d', '\n', '\n']), after)
      | _ => none
  | _ => none

/-- Step for ` \^([\w\d-]+)` replaced by `\n{ #$1}\n`
(`block_pattern` of `createBlockIDs`; yields the replacement). -/
def stepSimpleBlock (l : List Char) : Option (List Char × List Char) :=
  match l with
  | ' ' :: '^' :: rest =>
    let w := rest.takeWhile isAnchorChar
    if w.isEmpty then none
    else
      some ('\n' :: '\x7b' :: ' ' :: '#' :: (w ++ ['\x7d', '\n']),
        rest.drop w.length)
  | _ => none

/-- Modelled from the spec: the residual block-anchor token pattern
(`BLOCKREF_REGEX`, imported from a module outside the provided sources):
`\^\w+(\n|$)` removed globally, the trailing newline included. -/
def stepBlockRef (l : List Char) : Option (List Char × List Char) :=
  match l with
  | '^' :: rest =>
    let w := rest.takeWhile isWordChar
    if w.isEmpty then none
    else
      match rest.drop w.length with
      | [] => some ([], [])
      | '\n' :: after => some ([], after)
      | _ => none
  | _ => none

/-- Remove every residual block-anchor token (`BLOCKREF_REGEX` replace). -/
def removeBlockRefs (s : String) : String :=
  String.mk (replaceScan stepBlockRef s.toList)

/-- Modelled from the spec: the front-matter block pattern
(`FRONTMATTER_REGEX`, imported from a module outside the provided
sources): a leading run of whitespace, a `---` line, lazy content, and a
closing `\n---`; the first (anchored) match is replaced by `repl`. -/
def replaceFrontmatter (repl : String) (s : String) : String :=
  let l := s.toList
  let ws := l.takeWhile Char.isWhitespace
  let r := l.drop ws.length
  if ['-', '-', '-', '\n'].isPrefixOf r then
    match findSub ['\n', '-', '-', '-'] (r.drop 4) with
    | some i => repl ++ String.mk (r.drop (4 + i + 4))
    | none => s
  else s

/-! ## Image / SVG reference scanners

`convertImageLinks` uses
`/!\[\[(.*?)(\.(png|jpg|jpeg|gif|webp))\|(.*?)\]\]|!\[\[(.*?)(\.(png|jpg|jpeg|gif|webp))\]\]/g`
and `/!\[(.*?)\]\((.*?)(\.(png|jpg|jpeg|gif|webp))\)/g`;
`createSvgEmbeds` the analogous patterns with extension list `[svg]`.
The steps below replay the backtracking behaviour of those patterns. -/

def imageExts : List String := ["png", "jpg", "jpeg", "gif", "webp"]

/-- The length of a `.ext` + `delim` prefix of `l`, trying the extension
alternation in the order it appears in the pattern. -/
def extAt (exts : List String) (delim : String) (l : List Char) : Option Nat :=
  (exts.find? (fun e => (("." ++ e ++ delim).toList).isPrefixOf l)).map
    (fun e => 1 + e.length + delim.length)

/-- Search for the lazy split of alternative
`(.*?)(\.(ext))\|(.*?)\]\]`: returns `(i, k, j)` where `i` is the length
of the first lazy group (no newline), `k` the length of the `.ext|`
segment and `j` the length of the second lazy group up to `]]`. -/
def searchImgPipe (exts : List String) : List Char → Option (Nat × Nat × Nat)
  | [] => none
  | c :: rest =>
    let l := c :: rest
    let next : Option (Nat × Nat × Nat) :=
      if c = '\n' then none
      else (searchImgPipe exts rest).map (fun t => (t.1 + 1, t.2.1, t.2.2))
    match extAt exts "|" l with
    | some k =>
      (match findSub [']', ']'] (l.drop k) with
       | some j =>
         if ((l.drop k).take j).contains '\n' then next
         else some (0, k, j)
       | none => next)
    | none => next

/-- Search for the lazy split of alternative `(.*?)(\.(ext))` followed by
`delim`: returns `(i, k)` with `i` the first lazy group's length and `k`
the length of `.ext` + `delim`. -/
def searchImgPlain (exts : List String) (delim : String) :
    List Char → Option (Nat × Nat)
  | [] => none
  | c :: rest =>
    let l := c :: rest
    match extAt exts delim l with
    | some k => some (0, k)
    | none =>
      if c = '\n' then none
      else (searchImgPlain exts delim rest).map (fun t => (t.1 + 1, t.2))

/-- Step for the bracket-embed asset reference
`!\[\[(.*?)(\.(ext))\|(.*?)\]\]|!\[\[(.*?)(\.(ext))\]\]`. -/
def stepBracketAsset (exts : List String) (l : List Char) :
    Option (List Char × List Char) :=
  if ['!', '[', '['].isPrefixOf l then
    let body := l.drop 3
    match searchImgPipe exts body with
    | some (i, k, j) =>
      let len := 3 + i + k + j + 2
      some (l.take len, l.drop len)
    | none =>
      match searchImgPlain exts "]]" body with
      | some (i, k) =>
        let len := 3 + i + k
        some (l.take len, l.drop len)
      | none => none
  else none

/-- Search for the lazy group of `(.*?)` followed by `delim` (no newline
in the group); returns the group length. -/
def searchDelim (delim : List Char) : List Char → Option Nat
  | [] => if delim.isEmpty then some 0 else none
  | c :: rest =>
    if delim.isPrefixOf (c :: rest) then some 0
    else if c = '\n' then none
    else (searchDelim delim rest).map (· + 1)

/-- Step for the markdown-image asset reference
`!\[(.*?)\]\((.*?)(\.(ext))\)`. -/
def stepMarkdownAsset (exts : List String) (l : List Char) :
    Option (List Char × List Char) :=
  if ['!', '['].isPrefixOf l then
    let body := l.drop 2
    match searchDelim [']', '('] body with
    | some i =>
      let body₂ := body.drop (i + 2)
      match searchImgPlain exts ")" body₂ with
      | some (i₂, k) =>
        let len := 2 + i + 2 + i₂ + k
        some (l.take len, l.drop len)
      | none => none
    | none => none
  else none

/-! ## Base64 and URI encoding (`arrayBufferToBase64`, `encodeURI`,
`decodeURI` platform primitives used by the asset extractor) -/

def base64Table : List Char :=
  "ABCDEFGHIJKLMNOPQRSTUVWXYZabcdefghijklmnopqrstuvwxyz0123456789+/".toList

def b64Char (n : Nat) : Char := base64Table.getD n 'A'

/-- Standard base64 encoding of a byte list (bytes as `Nat < 256`). -/
def base64Encode : List Nat → String
  | [] => ""
  | [a] => String.mk [b64Char (a / 4), b64Char (a % 4 * 16), '=', '=']
  | [a, b] =>
    String.mk [b64Char (a / 4), b64Char (a % 4 * 16 + b / 16),
      b64Char (b % 16 * 4), '=']
  | a :: b :: c :: rest =>
    String.mk [b64Char (a / 4), b64Char (a % 4 * 16 + b / 16),
      b64Char (b % 16 * 4 + c / 64), b64Char (c % 64)] ++ base64Encode rest

/-- UTF-8 bytes of a character. -/
def utf8Bytes (c : Char) : List Nat :=
  let n := c.toNat
  if n < 128 then [n]
  else if n < 2048 then [192 + n / 64, 128 + n % 64]
  else if n < 65536 then
    [224 + n / 4096, 128 + n / 64 % 64, 128 + n % 64]
  else
    [240 + n / 262144, 128 + n / 4096 % 64, 128 + n / 64 % 64, 128 + n % 64]

def hexDigitChar (n : Nat) : Char := "0123456789ABCDEF".toList.getD n '0'

def pctEncodeByte (b : Nat) : List Char :=
  ['%', hexDigitChar (b / 16), hexDigitChar (b % 16)]

/-- The characters `encodeURI` leaves unescaped. -/
def uriUnescaped (c : Char) : Bool :=
  c.isAlphanum ||
    ['-', '_', '.', '!', '~', '*', Char.ofNat 39, '(', ')', ';', '/', '?',
      ':', '@', '&', '=', '+', '$', ',', '#'].contains c

/-- JS `encodeURI`. -/
def encodeURI (s : String) : String :=
  String.mk (s.toList.foldr
    (fun c acc =>
      (if uriUnescaped c then [c]
       else (utf8Bytes c).foldr (fun b a => pctEncodeByte b ++ a) []) ++ acc)
    [])

def hexVal (c : Char) : Option Nat :=
  if c.isDigit then some (c.toNat - 48)
  else if 'A' ≤ c && c ≤ 'F' then some (c.toNat - 55)
  else if 'a' ≤ c && c ≤ 'f' then some (c.toNat - 87)
  else none

/-- The reserved characters `decodeURI` keeps percent-encoded. -/
def uriReserved (c : Char) : Bool :=
  ['#', '$', '&', '+', ',', '/', ':', ';', '=', '?', '@'].contains c

/-- JS `decodeURI`, restricted to single-byte (ASCII) escape sequences —
sufficient for the ASCII paths handled here. -/
def decodeURIFuel : Nat → List Char → List Char
  | 0, l => l
  | _, [] => []
  | fuel + 1, c :: rest =>
    if c = '%' then
      match rest with
      | h₁ :: h₂ :: rest₂ =>
        match hexVal h₁, hexVal h₂ with
        | some v₁, some v₂ =>
          let b := v₁ * 16 + v₂
          if b < 128 && !(uriReserved (Char.ofNat b)) then
            Char.ofNat b :: decodeURIFuel fuel rest₂
          else c :: decodeURIFuel fuel rest
        | _, _ => c :: decodeURIFuel fuel rest
      | _ => c :: decodeURIFuel fuel rest
    else c :: decodeURIFuel fuel rest

def decodeURI (s : String) : String :=
  String.mk (decodeURIFuel s.length s.toList)

/-! ## Data model and collaborator environment -/

/-- A vault file handle (Obsidian `TFile`): identity data the compiler
reads from the resolver's result. -/
structure TFile where
  name : String
  path : String
  extension : String
  basename : String
  deriving Repr, DecidableEq

/-- A heading entry of the metadata cache: text, level and start line. -/
structure HeadingCache where
  heading : String
  level : Nat
  startLine : Nat
  deriving Repr, DecidableEq

/-- A block-anchor entry of the metadata cache: start/end line range. -/
structure BlockCache where
  startLine : Nat
  endLine : Nat
  deriving Repr, DecidableEq

/-- The metadata projection of a file: heading list, block-anchor map and
the `dg-permalink` front-matter entry. -/
structure FileMetadata where
  headings : List HeadingCache
  blocks : List (String × BlockCache)
  permalink : Option String
  deriving Repr, DecidableEq

/-- An extracted asset: publish path and base64 content. -/
structure Asset where
  path : String
  content : String
  deriving Repr, DecidableEq

/-- The dataview collaborator (`obsidian-dataview` API): configured
prefixes and the three evaluation entry points; `Except Unit` models a
throwing call. -/
structure DvApi where
  dataviewJsKeyword : String
  inlineQueryPrefix : String
  inlineJsQueryPrefix : String
  tryQueryMarkdown : String → String → Except Unit String
  executeJs : String → String → Except Unit String
  tryEvaluate : String → Except Unit (Option String)

/-- The collaborator environment of one compile: content store, metadata
cache, link resolver, publish set, drawing compiler, custom filters and
the URL utilities living outside the provided sources. -/
structure Env where
  resolve : String → String → Option TFile
  readText : TFile → String
  readBinary : TFile → List Nat
  metadata : TFile → FileMetadata
  publishedPaths : List String
  compileDrawing : Bool → String → String → String
  customFilters : List (String → String)
  compiledFrontmatter : TFile → String
  dvApi : Option DvApi
  slug : String → String
  sanitizePermalink : String → String
  urlPathFor : String → String
  fixHeaderSyntax : String → String
  setSvgWidth : String → String → String

/-- Modelled from the spec: Obsidian's `getLinkpath` (§4.1, resolver
input handling) — the target identifier before any `#` fragment. -/
def getLinkpath (s : String) : String :=
  (jsSplit s "#").headD s

/-! ## Inline markup passes -/

/-- `convertCustomFilters`: apply each user filter in order (each filter
is an opaque collaborator rewrite; an invalid pattern is skipped, which
the opaque function model absorbs). -/
def convertCustomFilters (env : Env) (text : String) : String :=
  env.customFilters.foldl (fun acc f => f acc) text

/-- `createBlockIDs`: rewrite `\n\^id\n` anchors to `{ #id}\n\n`, then
trailing ` \^id` anchors to `\n{ #id}\n`. -/
def createBlockIDs (text : String) : String :=
  String.mk (replaceScan stepSimpleBlock (replaceScan stepComplexBlock text.toList))

/-- The comment matches of a text (`text.match(/%%.+?%%/gms)`). -/
def commentMatches (text : String) : List String :=
  scanMatchesStr stepComment text

/-- The fenced-code-block matches of a text. -/
def codeBlockMatches (text : String) : List String :=
  scanMatchesStr stepCodeBlock text

/-- The inline code-span matches of a text. -/
def codeFenceMatches (text : String) : List String :=
  scanMatchesStr stepCodeFence text

/-- The drawing-block matches of a text. -/
def drawingMatches (text : String) : List String :=
  scanMatchesStr stepDrawing text

/-- Whether a comment match is protected: its text occurs inside some
fenced code block, inline code span or drawing block match
(`x.contains(commentMatch)` — containment of the matched strings). -/
def commentProtected (text m : String) : Bool :=
  (codeBlockMatches text).any (fun x => jsIncludes x m) ||
  (codeFenceMatches text).any (fun x => jsIncludes x m) ||
  (drawingMatches text).any (fun x => jsIncludes x m)

/-- `removeObsidianComments`: remove every comment match whose text is
not contained in a protected region, by first-occurrence replacement. -/
def removeObsidianComments (text : String) : String :=
  (commentMatches text).foldl
    (fun acc m => if commentProtected text m then acc else replaceFirstS acc m "")
    text

/-- `convertFrontMatter`: replace the front-matter block with the
front-matter compiler collaborator's output. -/
def convertFrontMatter (env : Env) (file : TFile) (text : String) : String :=
  replaceFrontmatter (env.compiledFrontmatter file) text

/-- `stripAwayCodeFencesAndFrontmatter`: blank out drawing blocks, fenced
code blocks, inline code spans and the front-matter block, in that
order. -/
def stripAwayCodeFencesAndFrontmatter (text : String) : String :=
  let t₁ := String.mk (replaceScan
    (fun l => (stepDrawing l).map (fun p => ([], p.2))) text.toList)
  let t₂ := String.mk (replaceScan
    (fun l => (stepCodeBlock l).map (fun p => ([], p.2))) t₁.toList)
  let t₃ := String.mk (replaceScan
    (fun l => (stepCodeFence l).map (fun p => ([], p.2))) t₂.toList)
  replaceFrontmatter "" t₃

/-- The link-resolution key of a `[[...]]` match in
`convertLinksToFullPath`: text inside the brackets, display name split
off, path-escape backslash stripped, `#` fragment removed. -/
def linkResolveKey (m : String) : String :=
  let inner := jsSubstring m (jsIndexOf m "[" + 2) (jsLastIndexOf m "]" - 1)
  let name₀ := (jsSplit inner "|").headD ""
  let name₁ := if jsEndsWith name₀ "\\" then jsSubstring name₀ 0 (name₀.length - 1)
    else name₀
  if jsIncludes name₁ "#" then (jsSplit name₁ "#").headD "" else name₁

/-- Per-match processing of `convertLinksToFullPath`. -/
def processLinkMatch (env : Env) (filePath : String) (acc m : String) : String :=
  let inner := jsSubstring m (jsIndexOf m "[" + 2) (jsLastIndexOf m "]" - 1)
  let parts := jsSplit inner "|"
  let name₀ := parts.headD ""
  let display₀ : Option String := parts.get? 1
  let name₁ := if jsEndsWith name₀ "\\" then jsSubstring name₀ 0 (name₀.length - 1)
    else name₀
  let display := match display₀ with
    | some d => if d = "" then name₁ else d
    | none => name₁
  let headerPath :=
    if jsIncludes name₁ "#" then
      if (jsSplit name₁ "#").length > 1 then
        "#" ++ (jsSplit name₁ "#").getD 1 ""
      else ""
    else ""
  let name₂ :=
    if jsIncludes name₁ "#" then (jsSplit name₁ "#").headD "" else name₁
  match env.resolve (getLinkpath name₂) filePath with
  | none =>
    replaceFirstS acc m ("[[" ++ name₂ ++ headerPath ++ "\\|" ++ display ++ "]]")
  | some f =>
    if f.extension = "md" then
      let extensionless := jsSubstring f.path 0 (jsLastIndexOf f.path ".")
      replaceFirstS acc m
        ("[[" ++ extensionless ++ headerPath ++ "\\|" ++ display ++ "]]")
    else acc

/-- `convertLinksToFullPath`: canonicalize every `[[...]]` link found in
the stripped text; unresolved links are pipe-escaped in place, resolved
markdown links rewritten to the extension-less full path. -/
def convertLinksToFullPath (env : Env) (file : TFile) (text : String) : String :=
  let stripped := stripAwayCodeFencesAndFrontmatter text
  (scanMatchesStr stepLink stripped).foldl (processLinkMatch env file.path) text

/-! ## Computed-query pass (`convertDataViews`) -/

/-- Step for a fenced query block `` ```kw\s(.+?)``` `` (flags `gms`);
yields the pair (full match, query group). -/
def stepDvBlock (kw : String) (l : List Char) :
    Option ((String × String) × List Char) :=
  let pre := ("```" ++ kw).toList
  if pre.isPrefixOf l then
    match l.drop pre.length with
    | c :: rest =>
      if c.isWhitespace then
        match findSub ['`', '`', '`'] (rest.drop 1) with
        | some j =>
          let content := rest.take (1 + j)
          let len := pre.length + 1 + (1 + j) + 3
          some ((String.mk (l.take len), String.mk content), l.drop len)
        | none => none
      else none
    | [] => none
  else none

/-- Step for an inline query `` `pfx(.+?)` `` (flags `gsm`); yields the
pair (full match, query group). -/
def stepDvInline (pfx : String) (l : List Char) :
    Option ((String × String) × List Char) :=
  let pre := ("`" ++ pfx).toList
  if pre.isPrefixOf l then
    let body := l.drop pre.length
    match findSub ['`'] (body.drop 1) with
    | some j =>
      let content := body.take (1 + j)
      let len := pre.length + (1 + j) + 1
      some ((String.mk (l.take len), String.mk content), l.drop len)
    | none => none
  else none

/-- The fenced block-query loop of `convertDataViews`: on success the
block is replaced by the rendered markdown plus a language marker; on a
throwing evaluation the function returns the raw query block itself
(`return queryBlock[0]`), modelled as the `error` value. -/
def dvQueryLoop (dv : DvApi) (path : String) :
    List (String × String) → String → Except String String
  | [], acc => .ok acc
  | (block, query) :: rest, acc =>
    match dv.tryQueryMarkdown query path with
    | .ok md =>
      dvQueryLoop dv path rest
        (replaceFirstS acc block (md ++ "\n\x7b .block-language-dataview\x7d"))
    | .error _ => .error block

/-- The script-query loops (fenced and inline JS): replace the match by
the rendered HTML; a throwing execution returns the raw match. -/
def dvJsLoop (dv : DvApi) (path : String) :
    List (String × String) → String → Except String String
  | [], acc => .ok acc
  | (block, query) :: rest, acc =>
    match dv.executeJs query path with
    | .ok html => dvJsLoop dv path rest (replaceFirstS acc block html)
    | .error _ => .error block

/-- The inline expression-query loop: a truthy result replaces the match,
a falsy one leaves it; a throwing evaluation returns the raw match. -/
def dvInlineLoop (dv : DvApi) :
    List (String × String) → String → Except String String
  | [], acc => .ok acc
  | (code, query) :: rest, acc =>
    match dv.tryEvaluate query with
    | .ok (some r) => dvInlineLoop dv rest (replaceFirstS acc code r)
    | .ok none => dvInlineLoop dv rest acc
    | .error _ => .error code

/-- `convertDataViews`: evaluate the four query shapes; when any single
evaluation throws, the pass's return value is the raw text of the failing
query fragment alone. -/
def convertDataViews (env : Env) (path : String) (text : String) : String :=
  match env.dvApi with
  | none => text
  | some dv =>
    let bs := scanMatches (stepDvBlock "dataview") text.toList
    let js := scanMatches (stepDvBlock dv.dataviewJsKeyword) text.toList
    let ils := scanMatches (stepDvInline dv.inlineQueryPrefix) text.toList
    let ijs := scanMatches (stepDvInline dv.inlineJsQueryPrefix) text.toList
    let r : Except String String := do
      let t₁ ← dvQueryLoop dv path bs text
      let t₂ ← dvJsLoop dv path js t₁
      let t₃ ← dvInlineLoop dv ils t₂
      dvJsLoop dv path ijs t₃
    match r with
    | .ok t => t
    | .error b => b

/-! ## Transclusion resolver (`createTranscludedText`) -/

/-- The resolution key of an embed match: the text inside the brackets up
to the first `]`, before the display-name pipe, fragment stripped. -/
def embedLinkPath (m : String) : String :=
  let inner := jsSubstring m (jsIndexOf m "[" + 2) (jsIndexOf m "]")
  getLinkpath ((jsSplit inner "|").headD "")

/-- Block- and header-scoped slicing of a transclusion target, returning
the sliced text and the section id used for the link-back fragment. -/
def transcludeSlice (env : Env) (tName : String) (fileText : String)
    (md : FileMetadata) : String × String :=
  if jsIncludes tName "#^" then
    let refBlock := (jsSplit tName "#^").getD 1 ""
    let sid := "#" ++ env.slug refBlock
    match (md.blocks.find? (fun b => b.1 == refBlock)).map Prod.snd with
    | some blk =>
      (replaceFirstS
        (joinSep "\n"
          (jsSlice (jsSplit fileText "\n") blk.startLine (blk.endLine + 1)))
        ("^" ++ refBlock) "", sid)
    | none => (fileText, sid)
  else if jsIncludes tName "#" then
    let refHeader := (jsSplit tName "#").getD 1 ""
    let sid := "#" ++ env.slug refHeader
    match md.headings.find? (fun h => h.heading == refHeader) with
    | some h =>
      let pos := md.headings.findIdx (fun x => x.heading == refHeader)
      match (md.headings.drop (pos + 1)).find? (fun x => x.level ≤ h.level) with
      | some cutTo =>
        (joinSep "\n"
          (jsSlice (jsSplit fileText "\n") h.startLine cutTo.startLine), sid)
      | none =>
        (joinSep "\n" ((jsSplit fileText "\n").drop h.startLine), sid)
    | none => (fileText, sid)
  else (fileText, "")

/-- `generateTransclusionHeader`: a falsy display override is returned
as-is; otherwise the `{{title}}` placeholder is substituted by the
target's base name and heading syntax normalized. -/
def generateTransclusionHeader (env : Env) (headerName : Option String)
    (f : TFile) : Option String :=
  match headerName with
  | none => none
  | some hn =>
    if hn = "" then some ""
    else
      some (env.fixHeaderSyntax
        (if jsIncludes hn "\x7b\x7btitle\x7d\x7d" then
          replaceFirstS hn "\x7b\x7btitle\x7d\x7d" f.basename
        else hn))

/-- The title block rendered above transcluded content (note the literal
`$` of the source template). -/
def embedTitleSection (header : Option String) : String :=
  match header with
  | some hn =>
    if hn = "" then ""
    else "$<div class=\"markdown-embed-title\">\n\n" ++ hn ++ "\n\n</div>\n"
  | none => ""

/-- The inline SVG icon of the transclusion link-back anchor. -/
def embedLinkIcon : String :=
  "<svg xmlns=\"http://www.w3.org/2000/svg\" width=\"24\" height=\"24\" viewBox=\"0 0 24 24\" fill=\"none\" stroke=\"currentColor\" stroke-width=\"2\" stroke-linecap=\"round\" stroke-linejoin=\"round\" class=\"svg-icon lucide-link\"><path d=\"M10 13a5 5 0 0 0 7.54.54l3-3a5 5 0 0 0-7.07-7.07l-1.72 1.71\"></path><path d=\"M14 11a5 5 0 0 0-7.54-.54l-3 3a5 5 0 0 0 7.07 7.07l1.71-1.71\"></path></svg>"

/-- The presentational embed envelope wrapped around transcluded
content. -/
def embedWrap (embeddedLink headerSection fileText : String) : String :=
  "\n<div class=\"transclusion internal-embed is-loaded\">" ++ embeddedLink ++
    "<div class=\"markdown-embed\">\n\n" ++ headerSection ++ "\n\n" ++
    fileText ++ "\n\n</div></div>\n"

/-- The per-match loop of `createTranscludedText`.  `recurse` is the
resolver at depth + 1; `counter` is the loop-local drawing counter
(`numberOfExcaliDraws`); the returned list logs every drawing-compiler
invocation as (support script included, numeric suffix). -/
def transcludeMatches (env : Env)
    (recurse : TFile → String → String × List (Bool × Nat)) (file : TFile) :
    List String → String → Nat → List (Bool × Nat) → String × List (Bool × Nat)
  | [], acc, _, log => (acc, log)
  | m :: rest, acc, counter, log =>
    let inner := jsSubstring m (jsIndexOf m "[" + 2) (jsIndexOf m "]")
    let parts := jsSplit inner "|"
    let tName := parts.headD ""
    let headerName : Option String := parts.get? 1
    match env.resolve (getLinkpath tName) file.path with
    | none => transcludeMatches env recurse file rest acc counter log
    | some linkedFile =>
      if jsEndsWith linkedFile.name ".excalidraw.md" then
        let counter' := counter + 1
        let isFirst := counter' == 1
        let fileText := env.readText linkedFile
        let code := env.compileDrawing isFirst (natToString counter') fileText
        transcludeMatches env recurse file rest (replaceFirstS acc m code)
          counter' (log ++ [(isFirst, counter')])
      else if linkedFile.extension == "md" then
        let fileText₀ := env.readText linkedFile
        let md := env.metadata linkedFile
        let sliced := transcludeSlice env tName fileText₀ md
        let fileText₂ := replaceFrontmatter "" sliced.1
        let fileText₃ := convertCustomFilters env fileText₂
        let fileText₄ := removeBlockRefs fileText₃
        let headerSection :=
          embedTitleSection (generateTransclusionHeader env headerName linkedFile)
        let embeddedLink :=
          if env.publishedPaths.contains linkedFile.path then
            let gardenPath := match md.permalink with
              | some p => env.sanitizePermalink p
              | none => "/" ++ env.urlPathFor linkedFile.path
            "<a class=\"markdown-embed-link\" href=\"" ++ gardenPath ++
              sliced.2 ++ "\" aria-label=\"Open link\">" ++ embedLinkIcon ++
              "</a>"
          else ""
        let wrapped := embedWrap embeddedLink headerSection fileText₄
        let step₂ :=
          if (scanMatchesStr stepEmbed wrapped).isEmpty then (wrapped, [])
          else recurse linkedFile wrapped
        transcludeMatches env recurse file rest (replaceFirstS acc m step₂.1)
          counter (log ++ step₂.2)
      else transcludeMatches env recurse file rest acc counter log

/-- The transclusion resolver by remaining recursion budget
(`fuel = 4 - currentDepth`): a zero budget is the source's
`currentDepth >= 4` early return. -/
def createTranscludedTextFuel (env : Env) :
    Nat → TFile → String → String × List (Bool × Nat)
  | 0, _, text => (text, [])
  | fuel + 1, file, text =>
    transcludeMatches env (createTranscludedTextFuel env fuel) file
      (scanMatchesStr stepEmbed text) text 0 []

/-- `createTranscludedText` at a given recursion depth; the second
component logs the drawing-compiler invocations of the whole call. -/
def createTranscludedText (env : Env) (currentDepth : Nat) (file : TFile)
    (text : String) : String × List (Bool × Nat) :=
  createTranscludedTextFuel env (4 - currentDepth) file text

/-! ## SVG inlining (`createSvgEmbeds`) -/

/-- Per-match processing of a `![[name.svg|size]]` embed. -/
def processSvgEmbed (env : Env) (filePath : String) (acc m : String) : String :=
  let inner := jsSubstring m (jsIndexOf m "[" + 2) (jsIndexOf m "]")
  let parts := jsSplit inner "|"
  let imageName := parts.headD ""
  let size : Option String := parts.get? 1
  match env.resolve (getLinkpath imageName) filePath with
  | none => acc
  | some f =>
    let svgText := env.readText f
    let svgText₂ :=
      if svgText ≠ "" then
        match size with
        | some sz => if sz ≠ "" then env.setSvgWidth svgText sz else svgText
        | none => svgText
      else svgText
    replaceFirstS acc m svgText₂

/-- Per-match processing of a `![alt](path.svg)` link. -/
def processSvgLink (env : Env) (filePath : String) (acc m : String) : String :=
  let inner := jsSubstring m (jsIndexOf m "[" + 2) (jsIndexOf m "]")
  let size : Option String := (jsSplit inner "|").get? 1
  let imagePath := jsSubstring m (jsLastIndexOf m "(" + 1) (jsLastIndexOf m ")")
  if jsStartsWith imagePath "http" then acc
  else
    match env.resolve imagePath filePath with
    | none => acc
    | some f =>
      let svgText := env.readText f
      let svgText₂ :=
        if svgText ≠ "" then
          match size with
          | some sz => if sz ≠ "" then env.setSvgWidth svgText sz else svgText
          | none => svgText
        else svgText
      replaceFirstS acc m svgText₂

/-- `createSvgEmbeds`: inline the two SVG reference shapes (the second
scan runs over the text already updated by the first, as in the
source). -/
def createSvgEmbeds (env : Env) (file : TFile) (text : String) : String :=
  let t₁ := (scanMatchesStr (stepBracketAsset ["svg"]) text).foldl
    (processSvgEmbed env file.path) text
  (scanMatchesStr (stepMarkdownAsset ["svg"]) t₁).foldl
    (processSvgLink env file.path) t₁

/-! ## Asset extraction (`convertImageLinks`) -/

/-- The inner text of an image match: brackets skipped, up to the first
`]`. -/
def imageInner (m : String) : String :=
  jsSubstring m (jsIndexOf m "[" + 2) (jsIndexOf m "]")

/-- The image name: inner text before the first pipe. -/
def imageNameOf (m : String) : String := ((jsSplit (imageInner m) "|")).headD ""

/-- The metadata/size tokens: inner text after the name. -/
def imageTokens (m : String) : List String := ((jsSplit (imageInner m) "|")).tail

/-- The size: the last token when `parseInt` yields a number. -/
def imageSize (tokens : List String) : Option String :=
  match tokens.getLast? with
  | some v => if (jsParseInt v).isSome then some v else none
  | none => none

/-- The metadata string: middle tokens joined by spaces; a non-size last
token is appended (after a space), JS stringifying a missing last value
as `undefined`. -/
def imageMetaData (tokens : List String) : String :=
  let lastValue := tokens.getLast?
  let lastValueIsSize := match lastValue with
    | some v => (jsParseInt v).isSome
    | none => false
  let md₀ :=
    if tokens.length > 1 then
      joinSep " " (tokens.take (tokens.length - 1))
    else ""
  if lastValueIsSize then md₀
  else md₀ ++ " " ++ (match lastValue with | some v => v | none => "undefined")

/-- The rewritten display name: metadata and size are kept only when a
size is present. -/
def imageRewriteName (imageName metaData : String) (size : Option String) :
    String :=
  match size with
  | some sz =>
    if metaData ≠ "" then imageName ++ "|" ++ metaData ++ "|" ++ sz
    else imageName ++ "|" ++ sz
  | none => imageName

/-- Per-match processing of a bracket-embed image in
`convertImageLinks`. -/
def processTranscludedImage (env : Env) (filePath : String)
    (st : String × List Asset) (m : String) : String × List Asset :=
  let imageName := imageNameOf m
  let tokens := imageTokens m
  match env.resolve (getLinkpath imageName) filePath with
  | none => st
  | some f =>
    let imageBase64 := base64Encode (env.readBinary f)
    let cmsImgPath := "/img/user/" ++ f.path
    let name := imageRewriteName imageName (imageMetaData tokens) (imageSize tokens)
    let imageMarkdown := "![" ++ name ++ "](" ++ encodeURI cmsImgPath ++ ")"
    (replaceFirstS st.1 m imageMarkdown, st.2 ++ [⟨cmsImgPath, imageBase64⟩])

/-- Per-match processing of a markdown-image reference in
`convertImageLinks` (note: its rewritten path is not URI-encoded). -/
def processMarkdownImage (env : Env) (filePath : String)
    (st : String × List Asset) (m : String) : String × List Asset :=
  let imageName := jsSubstring m (jsIndexOf m "[" + 1) (jsIndexOf m "]")
  let imagePath := jsSubstring m (jsLastIndexOf m "(" + 1) (jsLastIndexOf m ")")
  if jsStartsWith imagePath "http" then st
  else
    match env.resolve (decodeURI imagePath) filePath with
    | none => st
    | some f =>
      let imageBase64 := base64Encode (env.readBinary f)
      let cmsImgPath := "/img/user/" ++ f.path
      let imageMarkdown := "![" ++ imageName ++ "](" ++ cmsImgPath ++ ")"
      (replaceFirstS st.1 m imageMarkdown, st.2 ++ [⟨cmsImgPath, imageBase64⟩])

/-- `convertImageLinks`: extract and rewrite both image reference shapes
(both match lists are computed over the incoming text). -/
def convertImageLinks (env : Env) (text : String) (filePath : String) :
    String × List Asset :=
  let st₁ := (scanMatchesStr (stepBracketAsset imageExts) text).foldl
    (processTranscludedImage env filePath) (text, [])
  (scanMatchesStr (stepMarkdownAsset imageExts) text).foldl
    (processMarkdownImage env filePath) st₁

/-! ## Pipeline orchestrator (`generateMarkdown`) -/

/-- `generateMarkdown`: the drawing short-circuit, the eight ordered text
passes, then asset extraction. -/
def generateMarkdown (env : Env) (file : TFile) : String × List Asset :=
  let vaultFileText := env.readText file
  if jsEndsWith file.name ".excalidraw.md" then
    (env.compileDrawing true "" vaultFileText, [])
  else
    let t₁ := convertFrontMatter env file vaultFileText
    let t₂ := convertCustomFilters env t₁
    let t₃ := createBlockIDs t₂
    let t₄ := (createTranscludedText env 0 file t₃).1
    let t₅ := convertDataViews env file.path t₄
    let t₆ := convertLinksToFullPath env file t₅
    let t₇ := removeObsidianComments t₆
    let t₈ := createSvgEmbeds env file t₇
    convertImageLinks env t₈ file.path

/-! ## Concrete environments used as test fixtures -/

/-- A base environment: nothing resolves, all collaborators trivial. -/
def baseEnv : Env where
  resolve := fun _ _ => none
  readText := fun _ => ""
  readBinary := fun _ => []
  metadata := fun _ => ⟨[], [], none⟩
  publishedPaths := []
  compileDrawing := fun b id t =>
    "DRAW(" ++ (if b then "T" else "F") ++ "," ++ id ++ "," ++ t ++ ")"
  customFilters := []
  compiledFrontmatter := fun _ => ""
  dvApi := none
  slug := fun s => s
  sanitizePermalink := fun s => s
  urlPathFor := fun s => s
  fixHeaderSyntax := fun s => s
  setSvgWidth := fun s w => s ++ "@" ++ w

/-- A markdown vault file named `n`. -/
def mdFile (n : String) : TFile :=
  ⟨n ++ ".md", n ++ ".md", "md", n⟩

/-- A drawing vault file named `n` (its name ends in `.excalidraw.md`). -/
def drawFile (n : String) : TFile :=
  ⟨n ++ ".excalidraw.md", n ++ ".excalidraw.md", "md", n ++ ".excalidraw"⟩

/-- The compiling note used by the fixtures. -/
def noteFile : TFile := mdFile "note"

/-- A six-document transclusion chain: `d1` embeds `d2`, …, `d5` embeds
`d6`. -/
def envChain : Env :=
  { baseEnv with
    resolve := fun p _ =>
      if ["d1", "d2", "d3", "d4", "d5", "d6"].contains p then some (mdFile p)
      else none
    readText := fun f =>
      if f.path = "d1.md" then "![[d2]]"
      else if f.path = "d2.md" then "![[d3]]"
      else if f.path = "d3.md" then "![[d4]]"
      else if f.path = "d4.md" then "![[d5]]"
      else if f.path = "d5.md" then "![[d6]]"
      else "end" }

/-- A note containing only an unresolvable embed. -/
def envUnresolved : Env :=
  { baseEnv with readText := fun _ => "![[nonexistent]]" }

/-- An image target `assets/pic.png` resolvable as `pic.png` or by its
full path, with a fixed 4-byte PNG-magic content. -/
def picFile : TFile := ⟨"pic.png", "assets/pic.png", "png", "pic"⟩

def envImg : Env :=
  { baseEnv with
    resolve := fun p _ =>
      if p = "pic.png" || p = "assets/pic.png" then some picFile else none
    readBinary := fun _ => [137, 80, 78, 71] }

/-- A dataview API whose every evaluation throws. -/
def dvFail : DvApi where
  dataviewJsKeyword := "dataviewjs"
  inlineQueryPrefix := "="
  inlineJsQueryPrefix := "$="
  tryQueryMarkdown := fun _ _ => .error ()
  executeJs := fun _ _ => .error ()
  tryEvaluate := fun _ => .error ()

def envDvFail : Env := { baseEnv with dvApi := some dvFail }

/-- A target with one single-line block anchor `blk` (the spec's block
transclusion example). -/
def targetFile : TFile := mdFile "target"

def blockMeta : FileMetadata := ⟨[], [("blk", ⟨1, 1⟩)], none⟩

def envBlock : Env :=
  { baseEnv with
    resolve := fun p _ => if p = "target" then some targetFile else none
    readText := fun _ => "a\n^blk: content\nb"
    metadata := fun _ => blockMeta }

/-- A 12-line target with headings at lines 0 (level 1), 5 (level 2) and
10 (level 1) — the spec's header transclusion example. -/
def headerText : String :=
  joinSep "\n" ((List.range 12).map (fun i => "L" ++ natToString i))

def headerMeta : FileMetadata :=
  ⟨[⟨"Top", 1, 0⟩, ⟨"H2-heading", 2, 5⟩, ⟨"Next", 1, 10⟩], [], none⟩

def envHeader : Env :=
  { baseEnv with
    resolve := fun p _ => if p = "target" then some targetFile else none
    readText := fun _ => headerText
    metadata := fun _ => headerMeta }

/-- A root embedding a drawing and a note that itself embeds a second
drawing — the nested-drawing fixture. -/
def envDraw : Env :=
  { baseEnv with
    resolve := fun p _ =>
      if p = "drawA" then some (drawFile "drawA")
      else if p = "drawB" then some (drawFile "drawB")
      else if p = "sub" then some (mdFile "sub")
      else none
    readText := fun f => if f.path = "sub.md" then "![[drawB]]" else "scene" }

/-! ## Derived predicates on matches -/

/-- Whether an embed match resolves to a drawing target. -/
def resolvesToDrawing (env : Env) (file : TFile) (m : String) : Bool :=
  match env.resolve (embedLinkPath m) file.path with
  | some f => jsEndsWith f.name ".excalidraw.md"
  | none => false

/-- Whether an embed match resolves only to a drawing target, or not at
all. -/
def drawingOnlyMatch (env : Env) (file : TFile) (m : String) : Bool :=
  match env.resolve (embedLinkPath m) file.path with
  | some f => jsEndsWith f.name ".excalidraw.md"
  | none => true

/-- Whether a link match resolves to an existing non-markdown file. -/
def resolvesNonMd (env : Env) (filePath m : String) : Bool :=
  match env.resolve (getLinkpath (linkResolveKey m)) filePath with
  | some f => f.extension != "md"
  | none => false

/-! ## Helper lemmas -/

theorem string_mk_toList (s : String) : String.mk s.toList = s := rfl

/-- A text in which the scanning loop finds no match is returned
unchanged by the replacement driver. -/
theorem replaceScanFuel_no_match
    {step : List Char → Option (List Char × List Char)} :
    ∀ fuel l, scanHasMatchFuel step fuel l = false →
      replaceScanFuel step fuel l = l
  | 0, _, _ => by simp [replaceScanFuel]
  | _ + 1, [], _ => by simp [replaceScanFuel]
  | fuel + 1, c :: rest, h => by
    unfold scanHasMatchFuel at h
    unfold replaceScanFuel
    cases hs : step (c :: rest) with
    | some p => rw [hs] at h; simp at h
    | none =>
      rw [hs] at h
      rw [replaceScanFuel_no_match fuel rest h]

/-- The transclusion loop leaves text and log unchanged when none of the
matches resolve. -/
theorem transcludeMatches_skip (env : Env)
    (recurse : TFile → String → String × List (Bool × Nat)) (file : TFile) :
    ∀ ms acc counter log,
      (∀ m ∈ ms, env.resolve (embedLinkPath m) file.path = none) →
      transcludeMatches env recurse file ms acc counter log = (acc, log)
  | [], _, _, _, _ => rfl
  | m :: rest, acc, counter, log, h => by
    have h₁ := h m (List.mem_cons_self m rest)
    simp only [embedLinkPath] at h₁
    unfold transcludeMatches
    dsimp only
    rw [h₁]
    exact transcludeMatches_skip env recurse file rest acc counter log
      (fun x hx => h x (List.mem_cons_of_mem m hx))

/-- When every resolving match is a drawing, the transclusion loop logs
drawing-compiler invocations with consecutive suffixes starting right
after the incoming counter, the support script sent exactly for suffix
1. -/
theorem transcludeMatches_draw_log (env : Env)
    (recurse : TFile → String → String × List (Bool × Nat)) (file : TFile) :
    ∀ ms acc counter log,
      (∀ m ∈ ms, drawingOnlyMatch env file m = true) →
      (transcludeMatches env recurse file ms acc counter log).2 =
        log ++ (List.range' (counter + 1)
            (ms.countP (resolvesToDrawing env file))).map (fun n => (n == 1, n))
  | [], acc, counter, log, _ => by simp [transcludeMatches]
  | m :: rest, acc, counter, log, h => by
    have h₁ := h m (List.mem_cons_self m rest)
    have h₂ : ∀ x ∈ rest, drawingOnlyMatch env file x = true :=
      fun x hx => h x (List.mem_cons_of_mem m hx)
    unfold drawingOnlyMatch at h₁
    simp only [embedLinkPath] at h₁
    unfold transcludeMatches
    dsimp only
    rw [List.countP_cons]
    cases hres : env.resolve
        (getLinkpath ((jsSplit
          (jsSubstring m (jsIndexOf m "[" + 2) (jsIndexOf m "]")) "|").headD ""))
        file.path with
    | none =>
      have hp : resolvesToDrawing env file m = false := by
        unfold resolvesToDrawing
        simp only [embedLinkPath]
        rw [hres]
      rw [hp]
      simpa using transcludeMatches_draw_log env recurse file rest acc counter log h₂
    | some f =>
      rw [hres] at h₁
      have h₁' : jsEndsWith f.name ".excalidraw.md" = true := h₁
      have hp : resolvesToDrawing env file m = true := by
        unfold resolvesToDrawing
        simp only [embedLinkPath]
        rw [hres]
        exact h₁'
      rw [hp]
      dsimp only
      rw [if_pos h₁']
      rw [transcludeMatches_draw_log env recurse file rest _ (counter + 1) _ h₂]
      simp [List.range'_succ, List.append_assoc]

/-- A link match resolving to a non-markdown file is processed without
touching the text. -/
theorem processLinkMatch_nonmd (env : Env) (filePath acc m : String)
    (hm : resolvesNonMd env filePath m = true) :
    processLinkMatch env filePath acc m = acc := by
  unfold resolvesNonMd at hm
  simp only [linkResolveKey] at hm
  unfold processLinkMatch
  dsimp only
  split
  next heq =>
    rw [heq] at hm
    simp at hm
  next f heq =>
    rw [heq] at hm
    have hf : (f.extension != "md") = true := hm
    have hne : ¬ (f.extension = "md") := by simpa using hf
    rw [if_neg hne]

theorem linkFold_nonmd (env : Env) (filePath : String) :
    ∀ (ms : List String) (acc : String),
      (∀ m ∈ ms, resolvesNonMd env filePath m = true) →
      ms.foldl (processLinkMatch env filePath) acc = acc
  | [], _, _ => rfl
  | m :: rest, acc, h => by
    rw [List.foldl_cons,
      processLinkMatch_nonmd env filePath acc m (h m (List.mem_cons_self m rest))]
    exact linkFold_nonmd env filePath rest acc
      (fun x hx => h x (List.mem_cons_of_mem m hx))

theorem commentFold_protected (text : String) :
    ∀ (ms : List String) (acc : String),
      (∀ m ∈ ms, commentProtected text m = true) →
      ms.foldl (fun acc m =>
        if commentProtected text m then acc else replaceFirstS acc m "") acc = acc
  | [], _, _ => rfl
  | m :: rest, acc, h => by
    rw [List.foldl_cons, if_pos]
    · exact commentFold_protected text rest acc
        (fun x hx => h x (List.mem_cons_of_mem m hx))
    · exact h m (List.mem_cons_self m rest)

theorem commentFold_unprotected (text : String) :
    ∀ (ms : List String) (acc : String),
      (∀ m ∈ ms, commentProtected text m = false) →
      ms.foldl (fun acc m =>
        if commentProtected text m then acc else replaceFirstS acc m "") acc =
      ms.foldl (fun acc m => replaceFirstS acc m "") acc
  | [], _, _ => rfl
  | m :: rest, acc, h => by
    rw [List.foldl_cons, List.foldl_cons, if_neg]
    · exact commentFold_unprotected text rest _
        (fun x hx => h x (List.mem_cons_of_mem m hx))
    · rw [h m (List.mem_cons_self m rest)]; exact Bool.false_ne_true

/-! ## Claim theorems -/

/-- C1: the transclusion resolver invoked at recursion depth ≥ 4 returns
its input text unchanged; consequently a chain of six nested
transclusions is expanded only through depth 4 (root level counted), the
embed markup of the fifth level remaining as literal `![[d5]]` text in
the output (the output is four nested plain embed envelopes around that
literal). -/
theorem transclusionDepthBound :
    (∀ (env : Env) (d : Nat) (file : TFile) (text : String), 4 ≤ d →
      (createTranscludedText env d file text).1 = text) ∧
    (createTranscludedText envChain 0 noteFile "![[d1]]").1 =
      embedWrap "" "" (embedWrap "" ""
        (embedWrap "" "" (embedWrap "" "" "![[d5]]"))) ∧
    jsIncludes (createTranscludedText envChain 0 noteFile "![[d1]]").1
      "![[d5]]" = true := by
  refine ⟨?_, ?_, ?_⟩
  · intro env d file text h
    unfold createTranscludedText
    have h4 : 4 - d = 0 := by omega
    rw [h4]
    rfl
  · set_option maxRecDepth 40000 in decide
  · set_option maxRecDepth 40000 in decide

/-- C1 witness: at depth 4 the resolver is the identity on a concrete
embed text. -/
theorem transclusionDepthBound_witness :
    (createTranscludedText baseEnv 4 noteFile "![[x]]").1 = "![[x]]" :=
  transclusionDepthBound.1 baseEnv 4 noteFile "![[x]]" (Nat.le_refl 4)

/-- C2 counterexample: the full pipeline does not leave an unresolvable
`![[nonexistent]]` byte-for-byte unchanged — the link-canonicalization
pass pipe-escapes its inner `[[nonexistent]]`. -/
theorem unresolvedEmbedRewritten :
    generateMarkdown envUnresolved noteFile =
      ("![[nonexistent\\|nonexistent]]", []) ∧
    "![[nonexistent\\|nonexistent]]" ≠ "![[nonexistent]]" := by
  constructor
  · set_option maxRecDepth 40000 in decide
  · decide

/-- C2 amended: a document whose embeds all fail to resolve passes
through the transclusion pass unchanged (fail-soft at that pass), but
`generateMarkdown` rewrites the embed to `![[name\|name]]` through link
canonicalization, so the final output is the pipe-escaped form rather
than the original markup. -/
theorem unresolvedEmbedFailSoftAmended :
    (∀ (env : Env) (d : Nat) (file : TFile) (text : String),
      (∀ m ∈ scanMatchesStr stepEmbed text,
        env.resolve (embedLinkPath m) file.path = none) →
      createTranscludedText env d file text = (text, [])) ∧
    (generateMarkdown envUnresolved noteFile).1 =
      "![[nonexistent\\|nonexistent]]" := by
  constructor
  · intro env d file text h
    unfold createTranscludedText
    cases hf : 4 - d with
    | zero => rfl
    | succ fuel =>
      unfold createTranscludedTextFuel
      exact transcludeMatches_skip env _ file _ text 0 [] h
  · set_option maxRecDepth 40000 in decide

/-- C2 amended witness: the transclusion pass alone leaves the concrete
unresolvable embed unchanged. -/
theorem unresolvedEmbedFailSoftAmended_witness :
    createTranscludedText envUnresolved 0 noteFile "![[nonexistent]]" =
      ("![[nonexistent]]", []) :=
  unresolvedEmbedFailSoftAmended.1 envUnresolved 0 noteFile "![[nonexistent]]"
    (by decide)

/-- C3: when a fenced query block's evaluation throws, `convertDataViews`
returns the raw failing query block alone as the whole pass output — the
rest of the document (here the surrounding `A`/`B` lines) is discarded
rather than preserved. -/
theorem dataviewFailureDiscardsDocument :
    convertDataViews envDvFail "note.md" "A\n```dataview\nlist\n```\nB" =
      "```dataview\nlist\n```" ∧
    jsIncludes (convertDataViews envDvFail "note.md" "A\n```dataview\nlist\n```\nB")
      "B" = false := by
  constructor
  · set_option maxRecDepth 40000 in decide
  · set_option maxRecDepth 40000 in decide

/-- C4 counterexample: a bracket-embed image whose single token is not a
size (`![[pic.png|left]]`) is rewritten without its metadata — the
markup does not preserve the `left` token. -/
theorem imageMetadataDropped :
    (convertImageLinks envImg "![[pic.png|left]]" "note.md").1 =
      "![pic.png](/img/user/assets/pic.png)" ∧
    (convertImageLinks envImg "![[pic.png|left]]" "note.md").1 ≠
      "![pic.png|left](/img/user/assets/pic.png)" := by
  constructor
  · set_option maxRecDepth 40000 in decide
  · set_option maxRecDepth 40000 in decide

/-- C4 amended: a resolving bracket-embed image emits the asset
`{path = "/img/user/" ++ resolved path, content = base64 of the binary}`
and rewrites the markup to an image reference on the URI-encoded
canonical path; the display name keeps metadata and size only when the
last token parses as an integer (otherwise all metadata tokens are
dropped); the concrete `![[pic.png|200]]` round-trip produces exactly
`![pic.png|200](/img/user/assets/pic.png)` in both reference shapes. -/
theorem imageRewriteAmended :
    (∀ (env : Env) (filePath : String) (st : String × List Asset) (m : String)
      (f : TFile),
      env.resolve (getLinkpath (imageNameOf m)) filePath = some f →
      processTranscludedImage env filePath st m =
        (replaceFirstS st.1 m
          ("![" ++
            imageRewriteName (imageNameOf m) (imageMetaData (imageTokens m))
              (imageSize (imageTokens m)) ++
            "](" ++ encodeURI ("/img/user/" ++ f.path) ++ ")"),
         st.2 ++ [⟨"/img/user/" ++ f.path, base64Encode (env.readBinary f)⟩])) ∧
    (∀ (n md : String), imageRewriteName n md none = n) ∧
    convertImageLinks envImg "![[pic.png|200]]" "note.md" =
      ("![pic.png|200](/img/user/assets/pic.png)",
       [⟨"/img/user/assets/pic.png", "iVBORw=="⟩]) ∧
    convertImageLinks envImg "![pic.png|200](assets/pic.png)" "note.md" =
      ("![pic.png|200](/img/user/assets/pic.png)",
       [⟨"/img/user/assets/pic.png", "iVBORw=="⟩]) := by
  refine ⟨?_, ?_, ?_, ?_⟩
  · intro env filePath st m f hres
    unfold processTranscludedImage
    dsimp only
    rw [hres]
  · intro n md
    rfl
  · set_option maxRecDepth 40000 in decide
  · set_option maxRecDepth 40000 in decide

/-- C4 amended witness: the per-match characterization applied to the
concrete `![[pic.png|200]]` reference. -/
theorem imageRewriteAmended_witness :
    processTranscludedImage envImg "note.md" ("![[pic.png|200]]", [])
        "![[pic.png|200]]" =
      ("![pic.png|200](/img/user/assets/pic.png)",
       [⟨"/img/user/assets/pic.png", "iVBORw=="⟩]) :=
  (imageRewriteAmended.1 envImg "note.md" ("![[pic.png|200]]", [])
      "![[pic.png|200]]" picFile (by decide)).trans
    (by set_option maxRecDepth 40000 in decide)

/-- C5: a header-scoped transclusion whose header is found slices the
target's lines from the matched heading's start line up to (exclusive)
the start line of the next heading of level ≤ the matched level, or to
end-of-document when there is none; on the concrete fixture (headings at
lines 0/H1, 5/H2, 10/H1 over a 12-line document) transcluding
`![[target#H2-heading]]` splices exactly lines 5..9. -/
theorem headerTransclusionSlice :
    (∀ (env : Env) (tName fileText : String) (md : FileMetadata)
      (refHeader : String) (hd : HeadingCache),
      jsIncludes tName "#^" = false →
      jsIncludes tName "#" = true →
      (jsSplit tName "#").getD 1 "" = refHeader →
      md.headings.find? (fun x => x.heading == refHeader) = some hd →
      (transcludeSlice env tName fileText md).1 =
        match (md.headings.drop
            (md.headings.findIdx (fun x => x.heading == refHeader) + 1)).find?
            (fun x => x.level ≤ hd.level) with
        | some cutTo =>
          joinSep "\n" (jsSlice (jsSplit fileText "\n") hd.startLine cutTo.startLine)
        | none => joinSep "\n" ((jsSplit fileText "\n").drop hd.startLine)) ∧
    (createTranscludedText envHeader 0 noteFile "![[target#H2-heading]]").1 =
      embedWrap "" "" "L5\nL6\nL7\nL8\nL9" := by
  constructor
  · intro env tName fileText md refHeader hd h₀ h₁ h₂ h₃
    subst h₂
    simp only [transcludeSlice, h₀, h₁, if_true, if_false, Bool.false_eq_true, h₃]
    split <;> rfl
  · set_option maxRecDepth 40000 in decide

/-- C5 witness: the slicing characterization applied to the spec's
concrete fixture yields exactly lines 5..9. -/
theorem headerTransclusionSlice_witness :
    (transcludeSlice baseEnv "target#H2-heading" headerText headerMeta).1 =
      "L5\nL6\nL7\nL8\nL9" :=
  (headerTransclusionSlice.1 baseEnv "target#H2-heading" headerText headerMeta
      "H2-heading" ⟨"H2-heading", 2, 5⟩ (by decide) (by decide) (by decide)
      (by decide)).trans
    (by set_option maxRecDepth 40000 in decide)

/-- C6: a block-scoped transclusion whose anchor is recorded slices
exactly the anchor's start..end line range and strips the first
occurrence of the inline `^id` token; the `#^` marker takes precedence
over a bare `#` (the branch fires on any name containing `#^`); on the
concrete fixture (`target` = `a\n^blk: content\nb`, anchor `blk` on line
1) transcluding `![[target#^blk]]` splices exactly `: content`. -/
theorem blockTransclusionSlice :
    (∀ (env : Env) (tName fileText : String) (md : FileMetadata)
      (refBlock : String) (blk : BlockCache),
      jsIncludes tName "#^" = true →
      (jsSplit tName "#^").getD 1 "" = refBlock →
      (md.blocks.find? (fun b => b.1 == refBlock)).map Prod.snd = some blk →
      (transcludeSlice env tName fileText md).1 =
        replaceFirstS
          (joinSep "\n"
            (jsSlice (jsSplit fileText "\n") blk.startLine (blk.endLine + 1)))
          ("^" ++ refBlock) "") ∧
    (createTranscludedText envBlock 0 noteFile "![[target#^blk]]").1 =
      embedWrap "" "" ": content" := by
  constructor
  · intro env tName fileText md refBlock blk h₁ h₂ h₃
    subst h₂
    simp only [transcludeSlice, h₁, if_true, h₃]
  · set_option maxRecDepth 40000 in decide

/-- C6 witness: the slicing characterization applied to the spec's
concrete fixture yields `: content` — the anchor token removed, no other
target lines. -/
theorem blockTransclusionSlice_witness :
    (transcludeSlice baseEnv "target#^blk" "a\n^blk: content\nb" blockMeta).1 =
      ": content" :=
  (blockTransclusionSlice.1 baseEnv "target#^blk" "a\n^blk: content\nb"
      blockMeta "blk" ⟨1, 1⟩ (by decide) (by decide) (by decide)).trans
    (by set_option maxRecDepth 40000 in decide)

/-- C7 counterexample: the drawing counter is not one monotonic counter
spanning the whole top-level compile — a drawing nested in a transcluded
note restarts it, so both drawings of the fixture are compiled as
"first" with the support script and the duplicate suffix 1. -/
theorem drawingCounterRestarts :
    (createTranscludedText envDraw 0 noteFile "![[drawA]]\n![[sub]]").2 =
      [(true, 1), (true, 1)] ∧
    ¬ ((createTranscludedText envDraw 0 noteFile "![[drawA]]\n![[sub]]").2.map
        Prod.snd).Nodup := by
  constructor
  · set_option maxRecDepth 40000 in decide
  · set_option maxRecDepth 40000 in decide

/-- C7 amended: the drawing counter is local to one invocation of the
transclusion resolver: within a single invocation whose resolving embeds
are all drawings, the logged invocations carry the consecutive suffixes
1, 2, … in order and exactly the suffix-1 invocation includes the shared
support script; the counter restarts in recursive calls (see the
counterexample), so it does not span transcluded documents. -/
theorem drawingCounterPerInvocation :
    ∀ (env : Env) (file : TFile) (text : String),
      (∀ m ∈ scanMatchesStr stepEmbed text, drawingOnlyMatch env file m = true) →
      (createTranscludedText env 0 file text).2 =
        (List.range' 1
          ((scanMatchesStr stepEmbed text).countP
            (resolvesToDrawing env file))).map (fun n => (n == 1, n)) := by
  intro env file text h
  unfold createTranscludedText createTranscludedTextFuel
  simpa using transcludeMatches_draw_log env _ file _ text 0 [] h

/-- C7 amended witness: two sibling drawing embeds receive suffixes 1 and
2, only the first with the support script. -/
theorem drawingCounterPerInvocation_witness :
    (createTranscludedText envDraw 0 noteFile "![[drawA]]\n![[drawB]]").2 =
      [(true, 1), (false, 2)] :=
  (drawingCounterPerInvocation envDraw noteFile "![[drawA]]\n![[drawB]]"
      (by decide)).trans
    (by set_option maxRecDepth 40000 in decide)

/-- C8 counterexample: a comment outside every protected region survives
comment-stripping when its text also occurs inside a fenced code block —
containment is tested on match values, not positions. -/
theorem commentProtectionByValue :
    removeObsidianComments "```js\n%%keep%%\n```\n%%keep%%" =
      "```js\n%%keep%%\n```\n%%keep%%" ∧
    removeObsidianComments "```js\n%%keep%%\n```\n%%keep%%" ≠
      "```js\n%%keep%%\n```\n" := by
  constructor
  · set_option maxRecDepth 40000 in decide
  · set_option maxRecDepth 40000 in decide

/-- C8 amended: comment-stripping preserves every comment match whose
text occurs inside some fenced code block, inline code span or drawing
block match (regardless of the comment's own position), and removes
every comment match whose text occurs in none of them. -/
theorem commentStrippingAmended :
    (∀ t : String, (∀ m ∈ commentMatches t, commentProtected t m = true) →
      removeObsidianComments t = t) ∧
    (∀ t : String, (∀ m ∈ commentMatches t, commentProtected t m = false) →
      removeObsidianComments t =
        (commentMatches t).foldl (fun acc m => replaceFirstS acc m "") t) := by
  constructor
  · intro t h
    unfold removeObsidianComments
    exact commentFold_protected t _ t h
  · intro t h
    unfold removeObsidianComments
    exact commentFold_unprotected t _ t h

/-- C8 amended witness: a comment inside an inline code span survives; an
unprotected comment is removed. -/
theorem commentStrippingAmended_witness :
    removeObsidianComments "`a %%p%% b`" = "`a %%p%% b`" ∧
    removeObsidianComments "u %%v%% w" = "u  w" :=
  ⟨commentStrippingAmended.1 "`a %%p%% b`" (by decide),
   (commentStrippingAmended.2 "u %%v%% w" (by decide)).trans (by decide)⟩

/-- C9 counterexample: block-ID synthesis is not idempotent — on
consecutive anchor-only lines the second application rewrites the anchor
the first one left in place. -/
theorem blockIDsNotIdempotent :
    createBlockIDs (createBlockIDs "\n^a\n^b\n") ≠ createBlockIDs "\n^a\n^b\n" ∧
    createBlockIDs "\n^a\n^b\n" = "\x7b #a\x7d\n\n^b\n" ∧
    createBlockIDs (createBlockIDs "\n^a\n^b\n") =
      "\x7b #a\x7d\n\x7b #b\x7d\n\n" := by
  refine ⟨?_, ?_, ?_⟩ <;> decide

/-- C9 amended: neither pass is idempotent in general (see the
counterexample); however each pass applied to its own output is a no-op
whenever that output contains no residual trigger pattern — no anchor
pattern for block-ID synthesis, no comment span for comment
stripping. -/
theorem passesIdempotentWithoutResidue :
    (∀ t : String,
      scanHasMatch stepComplexBlock (createBlockIDs t).toList = false →
      scanHasMatch stepSimpleBlock (createBlockIDs t).toList = false →
      createBlockIDs (createBlockIDs t) = createBlockIDs t) ∧
    (∀ t : String, commentMatches (removeObsidianComments t) = [] →
      removeObsidianComments (removeObsidianComments t) =
        removeObsidianComments t) := by
  constructor
  · intro t h₁ h₂
    generalize hg : createBlockIDs t = s at h₁ h₂ ⊢
    unfold scanHasMatch at h₁ h₂
    unfold createBlockIDs replaceScan
    rw [replaceScanFuel_no_match _ _ h₁]
    rw [replaceScanFuel_no_match _ _ h₂]
    exact string_mk_toList s
  · intro t h
    generalize hg : removeObsidianComments t = s at h ⊢
    unfold removeObsidianComments
    rw [h]
    rfl

/-- C9 amended witness: both no-residue conditions discharged on concrete
already-processed texts. -/
theorem passesIdempotentWithoutResidue_witness :
    createBlockIDs (createBlockIDs "x ^a\n") = createBlockIDs "x ^a\n" ∧
    removeObsidianComments (removeObsidianComments "a %%b%% c") =
      removeObsidianComments "a %%b%% c" :=
  ⟨passesIdempotentWithoutResidue.1 "x ^a\n" (by decide) (by decide),
   passesIdempotentWithoutResidue.2 "a %%b%% c" (by decide)⟩

/-- C10: a `[[...]]` link resolving to an existing non-markdown file is
left completely unchanged by link canonicalization — when every link of
the text resolves to a non-markdown file, the pass is the identity
(neither rewrite nor pipe-escape happens). -/
theorem nonMarkdownLinksUntouched :
    ∀ (env : Env) (file : TFile) (text : String),
      (∀ m ∈ scanMatchesStr stepLink (stripAwayCodeFencesAndFrontmatter text),
        resolvesNonMd env file.path m = true) →
      convertLinksToFullPath env file text = text := by
  intro env file text h
  unfold convertLinksToFullPath
  exact linkFold_nonmd env file.path _ text h

/-- C10 witness: a link to a resolvable png file passes through the link
canonicalization pass unchanged. -/
theorem nonMarkdownLinksUntouched_witness :
    convertLinksToFullPath envImg noteFile "a [[pic.png]] b" =
      "a [[pic.png]] b" :=
  nonMarkdownLinksUntouched envImg noteFile "a [[pic.png]] b" (by decide)

end Garden
